import Mathlib

/-!
Shallow embedding of the plan-metadata inference engine in
`src/snowflake/snowpark/_internal/analyzer/metadata_utils.py`:
the `PlanMetadata` dataclass (with its `__post_init__` assertion),
`infer_quoted_identifiers_from_expressions`, and `infer_metadata`.

The collaborators that `metadata_utils.py` imports from sibling modules
(expression trees, plan node classes, `parse_column_name`, `quote_name`,
the analyzer and its session flag) are not part of the given sources; they
are modelled from the specification, each marked `Modelled from the spec:`
in its doc comment. `metadata_utils.py` itself is translated line by line.
-/

namespace SnowparkMeta

/-- Modelled from the spec: an `Attribute` is a resolved column descriptor —
name, datatype, nullability (`expression.py`, not under the given sources).
The datatype is kept as an opaque string since type inference is never
attempted by this engine. -/
structure Attribute where
  name : String
  datatype : String
  nullable : Bool
deriving DecidableEq, Repr

/-- Modelled from the spec: the expression shapes relevant to projection-name
inference (`expression.py` / `unary_expression.py`, not under the given
sources): an unqualified wildcard `Star`, an `UnresolvedAlias` wrapper, a
resolved column reference `Attribute`, a raw column reference
`UnresolvedAttribute` (its SQL text plus an optional dataframe alias), an
explicit `Alias`, a literal (which contributes no deterministic name), and
a catch-all for every other shape. -/
inductive Expression where
  | star : Expression
  | unresolvedAlias (child : Expression) : Expression
  | attribute (a : Attribute) : Expression
  | unresolvedAttribute (sql : String) (df_alias : Option String) : Expression
  | aliasExpr (child : Expression) (name : String) : Expression
  | literal : Expression
  | otherExpr : Expression
deriving DecidableEq, Repr

/-- The alias-resolution context
`df_aliased_col_name_to_real_col_name : DefaultDict[str, Dict[str, str]]`:
an outer dataframe alias maps to an inner {referenced name → real name} map,
embedded as association lists. -/
abbrev DfAliasMap := List (String × List (String × String))

/-- Look a name up through the alias-resolution context. -/
def resolve_df_alias (ctx : DfAliasMap) (df_alias : String) (name : String) :
    Option String :=
  match ctx.find? (fun p => p.1 == df_alias) with
  | some (_, inner) => (inner.find? (fun p => p.1 == name)).map (fun p => p.2)
  | none => none

/-- Modelled from the spec: the per-session boolean flag gating whether
inference is attempted (`session.reduce_describe_query_enabled`). -/
structure Session where
  reduce_describe_query_enabled : Bool

/-- Modelled from the spec: the `Analyzer` collaborator — it carries the
session (with its enabling flag) and can produce a canonical textual
rendering of an expression (used by `parse_column_name` for expressions
such as function calls and operators). -/
structure Analyzer where
  session : Session
  analyze : Expression → DfAliasMap → String

/-- `PlanMetadata`: two optional fields, `attributes` (schema) and
`quoted_identifiers` (column names), exactly as the frozen dataclass.
`Unknown` is both fields `none`; `AttributesKnown` is `attributes` set;
`NamesKnown` is `quoted_identifiers` set. -/
structure PlanMetadata where
  attributes : Option (List Attribute)
  quoted_identifiers : Option (List String)
deriving DecidableEq, Repr

/-- The condition asserted by `PlanMetadata.__post_init__`: `attributes` and
`quoted_identifiers` are never both populated. -/
def PlanMetadata.post_init_ok (m : PlanMetadata) : Bool :=
  !(m.attributes.isSome && m.quoted_identifiers.isSome)

/-- Constructing a `PlanMetadata` runs `__post_init__`, which asserts
`not (attributes is not None and quoted_identifiers is not None)`; an
invalid pair raises `AssertionError` instead of producing a value. -/
def mkPlanMetadata (attributes : Option (List Attribute))
    (quoted_identifiers : Option (List String)) :
    Except String PlanMetadata :=
  let m : PlanMetadata :=
    { attributes := attributes, quoted_identifiers := quoted_identifiers }
  if m.attributes.isSome && m.quoted_identifiers.isSome then
    Except.error "AssertionError"
  else
    Except.ok m

/-- Upper-case every character of a name (the backend's case-folding for
unquoted identifiers), written over the character list so that it reduces. -/
def fold_upper (name : String) : String :=
  String.mk (name.data.map Char.toUpper)

/-- Modelled from the spec: the identifier normalization rule `quote_name`
(`utils.py`, not under the given sources): preserve an already-quoted
identifier (one that starts and ends with a double quote) verbatim;
otherwise case-fold and delimiter-quote it exactly as the backend would. -/
def quote_name (name : String) : String :=
  if name.data.head? == some '"' && name.data.getLast? == some '"' then name
  else "\"" ++ fold_upper name ++ "\""

/-- Modelled from the spec: `parse_column_name` (`select_statement.py`, not
under the given sources) resolves a single deterministic output name for an
expression, or `none`: an explicit alias contributes its alias name; a
resolved column reference contributes its column name; a raw column
reference contributes its SQL text, resolved through the alias-resolution
context when it crosses an aliased-dataframe boundary; an expression under
an `UnresolvedAlias` contributes the analyzer's canonical textual rendering
of itself; a literal and a wildcard contribute no deterministic name. -/
def parse_column_name (e : Expression) (analyzer : Analyzer)
    (ctx : DfAliasMap) : Option String :=
  match e with
  | Expression.attribute a => some a.name
  | Expression.unresolvedAttribute sql df_alias =>
    match df_alias with
    | none => some sql
    | some al => resolve_df_alias ctx al sql
  | Expression.unresolvedAlias child =>
    some (analyzer.analyze (Expression.unresolvedAlias child) ctx)
  | Expression.aliasExpr _ name => some name
  | Expression.star => none
  | Expression.literal => none
  | Expression.otherExpr => none

/-- The source's early-exit test
`isinstance(e, UnresolvedAlias) and isinstance(e.child, Star)`. -/
def is_select_star (e : Expression) : Bool :=
  match e with
  | Expression.unresolvedAlias Expression.star => true
  | _ => false

/-- `infer_quoted_identifiers_from_expressions`: returns the quoted
identifiers of all expressions iff one can be derived from every
expression; the loop accumulating `result` and returning `None` on the
first failure is embedded as structural recursion on the list. -/
def infer_quoted_identifiers_from_expressions (expressions : List Expression)
    (analyzer : Analyzer) (df_aliased_col_name_to_real_col_name : DfAliasMap) :
    Option (List String) :=
  match expressions with
  | [] => some []
  | e :: rest =>
    if is_select_star e then none
    else
      match parse_column_name e analyzer df_aliased_col_name_to_real_col_name with
      | some column_name =>
        (infer_quoted_identifiers_from_expressions rest analyzer
            df_aliased_col_name_to_real_col_name).map
          (fun tail => quote_name column_name :: tail)
      | none => none

/-- Modelled from the spec: the piece of a compiled `SnowflakePlan` that
`infer_metadata` reads — its memoized `_metadata` slot. -/
structure SnowflakePlanData where
  metadata : PlanMetadata
deriving DecidableEq, Repr

/-- Modelled from the spec: what `infer_metadata` reads from a
`SelectStatement`'s `from_` clause — either a `Selectable` (whose
`_snowflake_plan` slot may or may not be populated) or some other source. -/
inductive FromSource where
  | selectable (snowflake_plan : Option SnowflakePlanData) : FromSource
  | nonSelectable : FromSource
deriving DecidableEq, Repr

/-- Modelled from the spec: the cached resolved output-column-state of a
`SelectStatement` (`_column_states`); its `projection` exposes one resolved
column descriptor per output column. -/
structure ColumnStates where
  projection : List Attribute
deriving DecidableEq, Repr

/-- Modelled from the spec: the logical plan shapes `infer_metadata`
dispatches on — a compiled `SnowflakePlan` (carrying memoized metadata), the
row-filtering nodes `Filter`/`Sort`/`Limit`/`Sample` with their single
child, a `Project` with its projection list, a `SelectStatement` with its
cached `_attributes`, cached `_column_states`, `from_` clause and
`projection`, and a catch-all for every other shape. -/
inductive LogicalPlan where
  | snowflakePlan (metadata : PlanMetadata) : LogicalPlan
  | filter (condition : Expression) (child : LogicalPlan) : LogicalPlan
  | sort (order : List Expression) (child : LogicalPlan) : LogicalPlan
  | limit (limit_expr : Expression) (offset_expr : Expression)
      (child : LogicalPlan) : LogicalPlan
  | sample (child : LogicalPlan) : LogicalPlan
  | project (project_list : List Expression) (child : LogicalPlan) : LogicalPlan
  | selectStatement (attributesCached : Option (List Attribute))
      (column_states : Option ColumnStates) (from_ : FromSource)
      (projection : Option (List Expression)) : LogicalPlan
  | otherPlan : LogicalPlan
deriving DecidableEq, Repr

/-- The `(attributes, quoted_identifiers)` pair computed by the body of
`infer_metadata`'s `isinstance` dispatch (lines 89-133), before the final
normalization and the `PlanMetadata` construction. -/
def infer_metadata_core (source_plan : LogicalPlan) (analyzer : Analyzer)
    (df_aliased_col_name_to_real_col_name : DfAliasMap) :
    Option (List Attribute) × Option (List String) :=
  match source_plan with
  | LogicalPlan.filter _ child
  | LogicalPlan.sort _ child
  | LogicalPlan.limit _ _ child
  | LogicalPlan.sample child =>
    -- metadata is used from the child directly, but only when the child is
    -- a compiled SnowflakePlan
    match child with
    | LogicalPlan.snowflakePlan m => (m.attributes, m.quoted_identifiers)
    | _ => (none, none)
  | LogicalPlan.project project_list _ =>
    (none,
      infer_quoted_identifiers_from_expressions project_list analyzer
        df_aliased_col_name_to_real_col_name)
  | LogicalPlan.selectStatement attributesCached column_states from_ projection =>
    -- When attributes is cached on source_plan, just use it
    let attributes := attributesCached
    -- When _column_states.projection is available, we can just use it
    let quoted_identifiers :=
      match column_states with
      | some cs => some (cs.projection.map Attribute.name)
      | none => none
    -- When from_ is a Selectable without a projection on top, it is a
    -- simple `SELECT * FROM ...` with the same metadata as its child plan;
    -- only fill the slots not set in the previous steps
    match from_, projection with
    | FromSource.selectable (some sp), none =>
      if attributes.isNone && sp.metadata.attributes.isSome then
        (sp.metadata.attributes, quoted_identifiers)
      else if quoted_identifiers.isNone && sp.metadata.quoted_identifiers.isSome then
        (attributes, sp.metadata.quoted_identifiers)
      else (attributes, quoted_identifiers)
    | _, _ => (attributes, quoted_identifiers)
  | LogicalPlan.snowflakePlan _ => (none, none)
  | LogicalPlan.otherPlan => (none, none)

/-- `infer_metadata`: the dispatch runs only when the session flag is on and
a source plan exists; afterwards, if `attributes` is available,
`quoted_identifiers` is always set back to `None`; the returned value goes
through the `PlanMetadata` constructor (and hence its assertion). -/
def infer_metadata (source_plan : Option LogicalPlan) (analyzer : Analyzer)
    (df_aliased_col_name_to_real_col_name : DfAliasMap) :
    Except String PlanMetadata :=
  match analyzer.session.reduce_describe_query_enabled, source_plan with
  | true, some sp =>
    let p := infer_metadata_core sp analyzer df_aliased_col_name_to_real_col_name
    -- If attributes is available, we always set quoted_identifiers to None
    if p.1.isSome then mkPlanMetadata p.1 none
    else mkPlanMetadata p.1 p.2
  | _, _ => mkPlanMetadata none none

/-- An expression has a derivable output name when it is not an unqualified
"select all" and `parse_column_name` resolves a name for it. -/
def name_derivable (analyzer : Analyzer) (ctx : DfAliasMap) (e : Expression) :
    Bool :=
  !(is_select_star e) && (parse_column_name e analyzer ctx).isSome

/-- The single normalized output name derived for one expression, when one
exists: `quote_name` applied to the parsed column name. -/
def derived_quoted_name (analyzer : Analyzer) (ctx : DfAliasMap)
    (e : Expression) : Option String :=
  if is_select_star e then none
  else (parse_column_name e analyzer ctx).map quote_name

/-- A `SelectStatement`'s `from_`/`projection` pair makes the node a
projection-free pass-through over a compiled source plan that has resolved
attributes (the branch of lines 114-125 that fills the attribute slot). -/
def select_passthrough_attributes (from_ : FromSource)
    (projection : Option (List Expression)) : Bool :=
  match from_, projection with
  | FromSource.selectable (some sp), none => sp.metadata.attributes.isSome
  | _, _ => false

/-- A session whose `reduce_describe_query_enabled` flag is off, with a
trivial rendering function. -/
def disabledAnalyzer : Analyzer :=
  { session := { reduce_describe_query_enabled := false }
    analyze := fun _ _ => "" }

/-- A session whose `reduce_describe_query_enabled` flag is on, with a
trivial rendering function. -/
def enabledAnalyzer : Analyzer :=
  { session := { reduce_describe_query_enabled := true }
    analyze := fun _ _ => "" }

/-- A concrete resolved column descriptor used in concrete evaluations. -/
def attrA : Attribute := { name := "A", datatype := "int", nullable := true }

/-- A concrete `SelectStatement` with a cached column-state naming `"B"`,
no cached attributes, over a projection-free pass-through source whose
metadata has resolved attributes. -/
def selectWithStatesAndPassthrough : LogicalPlan :=
  LogicalPlan.selectStatement none
    (some { projection := [{ name := "\"B\"", datatype := "int", nullable := true }] })
    (FromSource.selectable (some { metadata := { attributes := some [attrA], quoted_identifiers := none } }))
    none

/-- A concrete `SelectStatement` that is a bare pass-through (no cached
attributes, no cached column-state, no projection) over a source whose
metadata has resolved attributes. -/
def selectBarePassthrough : LogicalPlan :=
  LogicalPlan.selectStatement none none
    (FromSource.selectable (some { metadata := { attributes := some [attrA], quoted_identifiers := none } }))
    none

/-- C8: constructing a `PlanMetadata` with both `attributes` and
`quoted_identifiers` populated fails the `__post_init__` assertion
immediately, while any pair with at most one populated field constructs
successfully and keeps both fields exactly as given — the invalid state is
never silently coerced into a valid one. -/
theorem plan_metadata_construction_assertion :
    (∀ (al : List Attribute) (ql : List String),
      mkPlanMetadata (some al) (some ql) = Except.error "AssertionError") ∧
    (∀ (a : Option (List Attribute)) (q : Option (List String)),
      ¬(a.isSome = true ∧ q.isSome = true) →
      mkPlanMetadata a q =
        Except.ok { attributes := a, quoted_identifiers := q }) := by
  constructor
  · intro al ql
    rfl
  · intro a q h
    have hb : (a.isSome && q.isSome) = false := by
      cases ha : a.isSome <;> cases hq : q.isSome <;> simp_all
    simp [mkPlanMetadata, hb]

/-- Witness for C8: the assertion fires on a concrete doubly-populated pair
and passes on concrete singly-populated ones. -/
theorem plan_metadata_construction_assertion_witness :
    mkPlanMetadata (some [attrA]) (some ["\"A\""]) =
      Except.error "AssertionError" ∧
    mkPlanMetadata (some [attrA]) none =
      Except.ok { attributes := some [attrA], quoted_identifiers := none } ∧
    mkPlanMetadata none (some ["\"A\""]) =
      Except.ok { attributes := none, quoted_identifiers := some ["\"A\""] } :=
  ⟨plan_metadata_construction_assertion.1 [attrA] ["\"A\""],
   plan_metadata_construction_assertion.2 (some [attrA]) none (by decide),
   plan_metadata_construction_assertion.2 none (some ["\"A\""]) (by decide)⟩

/-- C2: when `reduce_describe_query_enabled` is false, `infer_metadata`
returns Unknown (both fields `none`) for every source plan, regardless of
any cached child metadata. -/
theorem infer_metadata_disabled_unknown (source_plan : Option LogicalPlan)
    (analyzer : Analyzer) (ctx : DfAliasMap)
    (h : analyzer.session.reduce_describe_query_enabled = false) :
    infer_metadata source_plan analyzer ctx =
      Except.ok { attributes := none, quoted_identifiers := none } := by
  cases source_plan <;> simp [infer_metadata, h, mkPlanMetadata]

/-- Witness for C2: a disabled session yields Unknown on a concrete plan
whose child metadata is fully resolved. -/
theorem infer_metadata_disabled_unknown_witness :
    infer_metadata (some selectBarePassthrough) disabledAnalyzer [] =
      Except.ok { attributes := none, quoted_identifiers := none } :=
  infer_metadata_disabled_unknown (some selectBarePassthrough) disabledAnalyzer
    [] rfl

/-- C9: for the empty expression list,
`infer_quoted_identifiers_from_expressions` returns the empty list (a known,
zero-column name list), not `none`; hence a projection with zero output
expressions resolves to NamesKnown of the empty list. -/
theorem infer_quoted_identifiers_empty_list (analyzer : Analyzer)
    (ctx : DfAliasMap) (child : LogicalPlan) :
    infer_quoted_identifiers_from_expressions [] analyzer ctx = some [] ∧
    infer_quoted_identifiers_from_expressions [] analyzer ctx ≠ none ∧
    (analyzer.session.reduce_describe_query_enabled = true →
      infer_metadata (some (LogicalPlan.project [] child)) analyzer ctx =
        Except.ok { attributes := none, quoted_identifiers := some [] }) := by
  refine ⟨rfl, by simp [infer_quoted_identifiers_from_expressions], fun h => ?_⟩
  simp [infer_metadata, h, infer_metadata_core,
    infer_quoted_identifiers_from_expressions, mkPlanMetadata]

/-- Witness for C9: a concrete zero-expression projection under an enabled
session resolves to NamesKnown of the empty list. -/
theorem infer_quoted_identifiers_empty_list_witness :
    infer_metadata (some (LogicalPlan.project [] LogicalPlan.otherPlan))
      enabledAnalyzer [] =
      Except.ok { attributes := none, quoted_identifiers := some [] } :=
  (infer_quoted_identifiers_empty_list enabledAnalyzer []
    LogicalPlan.otherPlan).2.2 rfl

/-- C1: for every source plan, analyzer and alias-resolution context,
`infer_metadata` returns (never raises) a `PlanMetadata` with at most one of
`attributes`/`quoted_identifiers` populated, and whenever `attributes` is
populated, `quoted_identifiers` is `none`. -/
theorem infer_metadata_mutual_exclusion (source_plan : Option LogicalPlan)
    (analyzer : Analyzer) (ctx : DfAliasMap) :
    ∃ m : PlanMetadata,
      infer_metadata source_plan analyzer ctx = Except.ok m ∧
      m.post_init_ok = true ∧
      (m.attributes.isSome = true → m.quoted_identifiers = none) := by
  cases h : analyzer.session.reduce_describe_query_enabled with
  | false =>
    exact ⟨⟨none, none⟩,
      by cases source_plan <;> simp [infer_metadata, h, mkPlanMetadata], rfl,
      by simp⟩
  | true =>
    cases source_plan with
    | none =>
      exact ⟨⟨none, none⟩, by simp [infer_metadata, h, mkPlanMetadata], rfl,
        by simp⟩
    | some sp =>
      by_cases h1 : (infer_metadata_core sp analyzer ctx).1.isSome = true
      · refine ⟨⟨(infer_metadata_core sp analyzer ctx).1, none⟩, ?_, ?_,
          fun _ => rfl⟩
        · simp [infer_metadata, h, h1, mkPlanMetadata]
        · simp [PlanMetadata.post_init_ok]
      · have h0 : (infer_metadata_core sp analyzer ctx).1 = none := by
          cases hh : (infer_metadata_core sp analyzer ctx).1 <;> simp_all
        refine ⟨⟨none, (infer_metadata_core sp analyzer ctx).2⟩, ?_, rfl,
          by simp⟩
        simp [infer_metadata, h, h0, mkPlanMetadata]

/-- C4: a projection list containing an unqualified wildcard — a bare
`Star` or an `UnresolvedAlias` wrapping one — makes
`infer_quoted_identifiers_from_expressions` return `none`, even when every
other expression in the list is individually resolvable. -/
theorem infer_quoted_identifiers_wildcard_dominance
    (expressions : List Expression) (analyzer : Analyzer) (ctx : DfAliasMap)
    (h : Expression.star ∈ expressions ∨
      Expression.unresolvedAlias Expression.star ∈ expressions) :
    infer_quoted_identifiers_from_expressions expressions analyzer ctx =
      none := by
  induction expressions with
  | nil => simp at h
  | cons e rest ih =>
    cases hs : is_select_star e with
    | true => simp [infer_quoted_identifiers_from_expressions, hs]
    | false =>
      have hne : Expression.star ∈ rest ∨
          Expression.unresolvedAlias Expression.star ∈ rest ∨
          e = Expression.star := by
        rcases h with h | h
        · rcases List.mem_cons.mp h with he | hr
          · exact Or.inr (Or.inr he.symm)
          · exact Or.inl hr
        · rcases List.mem_cons.mp h with he | hr
          · rw [← he] at hs
            simp [is_select_star] at hs
          · exact Or.inr (Or.inl hr)
      rcases hne with hr | hr | he
      · have h0 := ih (Or.inl hr)
        cases hp : parse_column_name e analyzer ctx <;>
          simp [infer_quoted_identifiers_from_expressions, hs, hp, h0]
      · have h0 := ih (Or.inr hr)
        cases hp : parse_column_name e analyzer ctx <;>
          simp [infer_quoted_identifiers_from_expressions, hs, hp, h0]
      · subst he
        simp [infer_quoted_identifiers_from_expressions, is_select_star,
          parse_column_name]

/-- Witness for C4: a concrete list whose first expression is resolvable and
whose second is a wrapped wildcard yields `none`. -/
theorem infer_quoted_identifiers_wildcard_dominance_witness :
    infer_quoted_identifiers_from_expressions
      [Expression.attribute attrA,
        Expression.unresolvedAlias Expression.star] enabledAnalyzer [] =
      none :=
  infer_quoted_identifiers_wildcard_dominance
    [Expression.attribute attrA, Expression.unresolvedAlias Expression.star]
    enabledAnalyzer [] (Or.inr (by decide))

/-- C5: `infer_quoted_identifiers_from_expressions` is all-or-nothing — it
returns a non-`none` result iff a name is derivable from every expression of
the list, and any returned list pairs each input expression, in input order
and with duplicates preserved, with exactly its own normalized (quoted)
name. -/
theorem infer_quoted_identifiers_all_or_nothing
    (expressions : List Expression) (analyzer : Analyzer) (ctx : DfAliasMap) :
    (infer_quoted_identifiers_from_expressions expressions analyzer ctx ≠
        none ↔
      ∀ e ∈ expressions, name_derivable analyzer ctx e = true) ∧
    (∀ l, infer_quoted_identifiers_from_expressions expressions analyzer ctx =
        some l →
      List.Forall₂ (fun e n => derived_quoted_name analyzer ctx e = some n)
        expressions l) := by
  induction expressions with
  | nil =>
    refine ⟨by simp [infer_quoted_identifiers_from_expressions], ?_⟩
    intro l hl
    simp [infer_quoted_identifiers_from_expressions] at hl
    simp [← hl]
  | cons e rest ih =>
    cases hs : is_select_star e with
    | true =>
      have hres : infer_quoted_identifiers_from_expressions (e :: rest)
          analyzer ctx = none := by
        simp [infer_quoted_identifiers_from_expressions, hs]
      refine ⟨⟨fun hne => absurd hres hne, fun hall => ?_⟩, fun l hl => ?_⟩
      · have hd := hall e (List.mem_cons_self e rest)
        simp [name_derivable, hs] at hd
      · rw [hres] at hl
        cases hl
    | false =>
      cases hp : parse_column_name e analyzer ctx with
      | none =>
        have hres : infer_quoted_identifiers_from_expressions (e :: rest)
            analyzer ctx = none := by
          simp [infer_quoted_identifiers_from_expressions, hs, hp]
        refine ⟨⟨fun hne => absurd hres hne, fun hall => ?_⟩, fun l hl => ?_⟩
        · have hd := hall e (List.mem_cons_self e rest)
          simp [name_derivable, hs, hp] at hd
        · rw [hres] at hl
          cases hl
      | some cn =>
        have hstep : infer_quoted_identifiers_from_expressions (e :: rest)
            analyzer ctx =
            (infer_quoted_identifiers_from_expressions rest analyzer ctx).map
              (fun tail => quote_name cn :: tail) := by
          simp [infer_quoted_identifiers_from_expressions, hs, hp]
        refine ⟨⟨fun hne e' he' => ?_, fun hall => ?_⟩, fun l hl => ?_⟩
        · rcases List.mem_cons.mp he' with he | hr
          · subst he
            simp [name_derivable, hs, hp]
          · refine ih.1.mp ?_ e' hr
            intro h0
            rw [hstep, h0] at hne
            simp at hne
        · have hr : infer_quoted_identifiers_from_expressions rest analyzer
              ctx ≠ none :=
            ih.1.mpr fun e' hr' => hall e' (List.mem_cons_of_mem e hr')
          cases hrest : infer_quoted_identifiers_from_expressions rest
              analyzer ctx with
          | none => exact absurd hrest hr
          | some tail => simp [hstep, hrest]
        · rw [hstep] at hl
          cases hrest : infer_quoted_identifiers_from_expressions rest
              analyzer ctx with
          | none =>
            rw [hrest] at hl
            cases hl
          | some tail =>
            rw [hrest] at hl
            simp at hl
            rw [← hl]
            exact List.Forall₂.cons (by simp [derived_quoted_name, hs, hp])
              (ih.2 tail hrest)

/-- Witness for C5: on a concrete wildcard-free list with a duplicated
column, the returned names pair up one-to-one, in order, duplicates kept. -/
theorem infer_quoted_identifiers_all_or_nothing_witness :
    List.Forall₂
      (fun e n => derived_quoted_name enabledAnalyzer [] e = some n)
      [Expression.attribute attrA,
        Expression.aliasExpr Expression.literal "c",
        Expression.attribute attrA]
      ["\"A\"", "\"C\"", "\"A\""] :=
  (infer_quoted_identifiers_all_or_nothing
    [Expression.attribute attrA,
      Expression.aliasExpr Expression.literal "c",
      Expression.attribute attrA] enabledAnalyzer []).2
    ["\"A\"", "\"C\"", "\"A\""] (by decide)

/-- C3 counterexample: with the session flag off, a filter node over a
compiled child whose metadata is resolved (not Unknown) yields Unknown, not
the child's metadata — so identity propagation does not hold for every
analyzer, only for enabled sessions. -/
theorem identity_propagation_needs_flag_counterexample :
    infer_metadata
      (some (LogicalPlan.filter Expression.otherExpr
        (LogicalPlan.snowflakePlan
          { attributes := some [attrA], quoted_identifiers := none })))
      disabledAnalyzer [] =
      Except.ok { attributes := none, quoted_identifiers := none } ∧
    ({ attributes := none, quoted_identifiers := none } : PlanMetadata) ≠
      { attributes := some [attrA], quoted_identifiers := none } :=
  ⟨rfl, by decide⟩

/-- C3 (amended): when `reduce_describe_query_enabled` is true, a filter,
sort, limit or sample node whose child is a compiled plan with resolved
metadata `M` (valid per the construction invariant, not Unknown) infers
exactly `M`, field for field. -/
theorem infer_metadata_identity_propagation
    (analyzer : Analyzer) (ctx : DfAliasMap) (node : LogicalPlan)
    (M : PlanMetadata)
    (henabled : analyzer.session.reduce_describe_query_enabled = true)
    (hvalid : M.post_init_ok = true)
    (hM : M ≠ { attributes := none, quoted_identifiers := none })
    (hshape :
      (∃ c, node = LogicalPlan.filter c (LogicalPlan.snowflakePlan M)) ∨
      (∃ o, node = LogicalPlan.sort o (LogicalPlan.snowflakePlan M)) ∨
      (∃ le oe, node = LogicalPlan.limit le oe
        (LogicalPlan.snowflakePlan M)) ∨
      node = LogicalPlan.sample (LogicalPlan.snowflakePlan M)) :
    infer_metadata (some node) analyzer ctx = Except.ok M := by
  obtain ⟨Ma, Mq⟩ := M
  have hcore : infer_metadata_core node analyzer ctx = (Ma, Mq) := by
    rcases hshape with ⟨c, rfl⟩ | ⟨o, rfl⟩ | ⟨le, oe, rfl⟩ | rfl <;> rfl
  cases Ma with
  | some al =>
    cases Mq with
    | some ql => simp [PlanMetadata.post_init_ok] at hvalid
    | none => simp [infer_metadata, henabled, hcore, mkPlanMetadata]
  | none => simp [infer_metadata, henabled, hcore, mkPlanMetadata]

/-- Witness for amended C3: a concrete sort node over a compiled child with
NamesKnown metadata inherits it unchanged under an enabled session. -/
theorem infer_metadata_identity_propagation_witness :
    infer_metadata
      (some (LogicalPlan.sort [] (LogicalPlan.snowflakePlan
        { attributes := none, quoted_identifiers := some ["\"A\""] })))
      enabledAnalyzer [] =
      Except.ok { attributes := none, quoted_identifiers := some ["\"A\""] } :=
  infer_metadata_identity_propagation enabledAnalyzer []
    (LogicalPlan.sort [] (LogicalPlan.snowflakePlan
      { attributes := none, quoted_identifiers := some ["\"A\""] }))
    { attributes := none, quoted_identifiers := some ["\"A\""] } rfl
    (by decide) (by decide) (Or.inr (Or.inl ⟨[], rfl⟩))

/-- C6 counterexample: a `SelectStatement` with a cached column-state naming
`"B"` and no cached attributes, but sitting as a projection-free
pass-through over a source whose metadata has resolved attributes, infers
the source's AttributesKnown — not NamesKnown of the cached names as the
claim states. -/
theorem select_column_states_counterexample :
    infer_metadata (some selectWithStatesAndPassthrough) enabledAnalyzer [] =
      Except.ok { attributes := some [attrA], quoted_identifiers := none } ∧
    ({ attributes := some [attrA], quoted_identifiers := none } :
        PlanMetadata) ≠
      { attributes := none, quoted_identifiers := some ["\"B\""] } :=
  ⟨rfl, by decide⟩

/-- C6 (amended): when `reduce_describe_query_enabled` is true, a
`SelectStatement` with a cached resolved column-state and no cached
attribute list — and which is not a projection-free pass-through over a
source plan with resolved attributes — infers NamesKnown of exactly the
cached entries' names, in order. -/
theorem infer_metadata_select_column_states
    (analyzer : Analyzer) (ctx : DfAliasMap) (cs : ColumnStates)
    (from_ : FromSource) (projection : Option (List Expression))
    (henabled : analyzer.session.reduce_describe_query_enabled = true)
    (hpt : select_passthrough_attributes from_ projection = false) :
    infer_metadata
      (some (LogicalPlan.selectStatement none (some cs) from_ projection))
      analyzer ctx =
      Except.ok { attributes := none,
                  quoted_identifiers :=
                    some (cs.projection.map Attribute.name) } := by
  have hcore : infer_metadata_core
      (LogicalPlan.selectStatement none (some cs) from_ projection) analyzer
      ctx = (none, some (cs.projection.map Attribute.name)) := by
    cases from_ with
    | nonSelectable => rfl
    | selectable osp =>
      cases osp with
      | none => rfl
      | some sp =>
        cases projection with
        | some _ => rfl
        | none =>
          simp [select_passthrough_attributes] at hpt
          simp [infer_metadata_core, hpt]
  simp [infer_metadata, henabled, hcore, mkPlanMetadata]

/-- Witness for amended C6: a concrete statement with cached names and a
non-`Selectable` source resolves to NamesKnown of the cached names. -/
theorem infer_metadata_select_column_states_witness :
    infer_metadata
      (some (LogicalPlan.selectStatement none
        (some { projection :=
          [{ name := "\"B\"", datatype := "int", nullable := true }] })
        FromSource.nonSelectable none))
      enabledAnalyzer [] =
      Except.ok { attributes := none, quoted_identifiers := some ["\"B\""] } :=
  infer_metadata_select_column_states enabledAnalyzer []
    { projection := [{ name := "\"B\"", datatype := "int", nullable := true }] }
    FromSource.nonSelectable none rfl rfl

/-- C7 counterexample: with the session flag off, a bare pass-through
`SelectStatement` over a source with AttributesKnown metadata yields
Unknown, not the source's attributes — so the pass-through copy holds only
for enabled sessions. -/
theorem select_passthrough_needs_flag_counterexample :
    infer_metadata (some selectBarePassthrough) disabledAnalyzer [] =
      Except.ok { attributes := none, quoted_identifiers := none } ∧
    ({ attributes := none, quoted_identifiers := none } : PlanMetadata) ≠
      { attributes := some [attrA], quoted_identifiers := none } :=
  ⟨rfl, by decide⟩

/-- C7 (amended): when `reduce_describe_query_enabled` is true, a
`SelectStatement` with no cached attributes, no cached column-state and no
projection, over a `Selectable` source whose compiled plan's metadata has
resolved attributes, infers exactly the source's AttributesKnown — the
attribute slot is checked and filled before the name slot. -/
theorem infer_metadata_select_bare_passthrough
    (analyzer : Analyzer) (ctx : DfAliasMap) (sp : SnowflakePlanData)
    (attrs : List Attribute)
    (henabled : analyzer.session.reduce_describe_query_enabled = true)
    (hattrs : sp.metadata.attributes = some attrs) :
    infer_metadata
      (some (LogicalPlan.selectStatement none none
        (FromSource.selectable (some sp)) none)) analyzer ctx =
      Except.ok { attributes := some attrs, quoted_identifiers := none } := by
  have hcore : infer_metadata_core
      (LogicalPlan.selectStatement none none
        (FromSource.selectable (some sp)) none) analyzer ctx =
      (some attrs, none) := by
    simp [infer_metadata_core, hattrs]
  simp [infer_metadata, henabled, hcore, mkPlanMetadata]

/-- Witness for amended C7: the concrete bare pass-through copies its
source's AttributesKnown verbatim under an enabled session. -/
theorem infer_metadata_select_bare_passthrough_witness :
    infer_metadata (some selectBarePassthrough) enabledAnalyzer [] =
      Except.ok { attributes := some [attrA], quoted_identifiers := none } :=
  infer_metadata_select_bare_passthrough enabledAnalyzer []
    { metadata := { attributes := some [attrA], quoted_identifiers := none } }
    [attrA] rfl rfl

/-- C10: even with `reduce_describe_query_enabled` true, a filter, sort,
limit or sample node whose single child is not a compiled `SnowflakePlan`
infers Unknown — child metadata is inherited only from a compiled-plan
child, and inference (being a pure function of the tree) never resolves the
child as a side effect. -/
theorem infer_metadata_non_compiled_child_unknown
    (analyzer : Analyzer) (ctx : DfAliasMap) (child : LogicalPlan)
    (cond : Expression) (order : List Expression) (le oe : Expression)
    (henabled : analyzer.session.reduce_describe_query_enabled = true)
    (hchild : ∀ m : PlanMetadata, child ≠ LogicalPlan.snowflakePlan m) :
    infer_metadata (some (LogicalPlan.filter cond child)) analyzer ctx =
      Except.ok { attributes := none, quoted_identifiers := none } ∧
    infer_metadata (some (LogicalPlan.sort order child)) analyzer ctx =
      Except.ok { attributes := none, quoted_identifiers := none } ∧
    infer_metadata (some (LogicalPlan.limit le oe child)) analyzer ctx =
      Except.ok { attributes := none, quoted_identifiers := none } ∧
    infer_metadata (some (LogicalPlan.sample child)) analyzer ctx =
      Except.ok { attributes := none, quoted_identifiers := none } := by
  cases child <;>
    first
    | exact absurd rfl (hchild _)
    | exact ⟨by simp [infer_metadata, henabled, infer_metadata_core,
          mkPlanMetadata],
        by simp [infer_metadata, henabled, infer_metadata_core,
          mkPlanMetadata],
        by simp [infer_metadata, henabled, infer_metadata_core,
          mkPlanMetadata],
        by simp [infer_metadata, henabled, infer_metadata_core,
          mkPlanMetadata]⟩

/-- Witness for C10: a concrete filter over an unresolved `Project` child
(the spec's `Filter(child = Project([column("a")]))` scenario) yields
Unknown under an enabled session. -/
theorem infer_metadata_non_compiled_child_unknown_witness :
    infer_metadata (some (LogicalPlan.filter Expression.otherExpr
        (LogicalPlan.project [Expression.attribute attrA]
          LogicalPlan.otherPlan)))
      enabledAnalyzer [] =
      Except.ok { attributes := none, quoted_identifiers := none } :=
  (infer_metadata_non_compiled_child_unknown enabledAnalyzer []
    (LogicalPlan.project [Expression.attribute attrA] LogicalPlan.otherPlan)
    Expression.otherExpr [] Expression.otherExpr Expression.otherExpr rfl
    (fun _ h => LogicalPlan.noConfusion h)).1

end SnowparkMeta
